import Mathlib

/-!
# Shallow embedding of the argparse option-parsing core (src/src/argparser.h)

The C++ core is embedded as pure Lean functions with explicit state passing:

* `Value` embeds `argument_parser::Value` (assignment counters, error flag)
  together with the destination of its concrete subclass: `Dest.voidDest`
  for `VoidValue`, `Dest.scalar` / `Dest.vector` for `ConvertedValue` over a
  scalar or `std::vector` destination.  The typed destination is represented
  by the converted string; the converter `String → Option String` plays the
  role of `mConvert`, with `none` standing for a thrown
  `std::invalid_argument` / `std::out_of_range`.
* `Opt` embeds `argument_parser::Option` (named `Opt` because `Option` is
  taken by Lean).  The fields `mMetavar`, `mHelp` and `mpAssignAction` are
  not modelled: they are never set in the scenarios of interest and the
  assign-action defaults to absent (`mpAssignAction == nullptr`), in which
  case `Option::setValue` delegates directly to the slot.  Each `Opt` owns
  its `Value`; value sharing between aliases does not occur in the modelled
  registries.
* `PState` embeds the private `Parser` class state plus the option lists it
  mutates through `argument_parser&`; `parse_args` embeds
  `argument_parser::parse_args`, with thrown exceptions and `exit(0)`
  returned through `Except ParseExit`.
-/

namespace argparse

/-- Errors known by the parser (`argument_parser::EError`). -/
inductive EError where
  | UNKNOWN_OPTION
  | EXCLUSIVE_OPTION
  | MISSING_OPTION
  | MISSING_OPTION_GROUP
  | MISSING_ARGUMENT
  | CONVERSION_ERROR
  | INVALID_CHOICE
  | FLAG_PARAMETER
  | HELP_REQUESTED
deriving DecidableEq, Repr

/-- The destination referenced by a `Value`: nothing (`VoidValue`), a scalar
variable, or a `std::vector` (`ConvertedValue<TValue>` / `<std::vector<T>>`).
`Dest.scalar none` is the default-initialized (`mValue = {}`) state. -/
inductive Dest where
  | voidDest
  | scalar (val : Option String)
  | vector (vals : List String)
deriving DecidableEq, Repr

/-- `argument_parser::Value`: counters, error flag and destination. -/
structure Value where
  assignCount : Nat
  optionAssignCount : Nat
  hasErrors : Bool
  dest : Dest
deriving DecidableEq, Repr

/-- `doSetValue`: convert and store.  Returns the updated value and whether
the converter threw (`true` = exception propagates to the caller).  C++
`var = mConvert(value)` / `var.push_back(mConvert(value))` evaluate the
converter first, so a throwing conversion leaves the destination unchanged.
`VoidValue::doSetValue` does nothing and never throws. -/
def Value.doSetValue (conv : String → Option String) (v : Value) (s : String) : Value × Bool :=
  match v.dest with
  | Dest.voidDest => (v, false)
  | Dest.scalar _ =>
    match conv s with
    | some c => ({ v with dest := Dest.scalar (some c) }, false)
    | none => (v, true)
  | Dest.vector xs =>
    match conv s with
    | some c => ({ v with dest := Dest.vector (xs ++ [c]) }, false)
    | none => (v, true)

/-- `Value::setValue`: both counters are incremented before `doSetValue`
runs, so they stay incremented even when the conversion throws. -/
def Value.setValue (conv : String → Option String) (v : Value) (s : String) : Value × Bool :=
  Value.doSetValue conv
    { v with assignCount := v.assignCount + 1, optionAssignCount := v.optionAssignCount + 1 } s

/-- `Value::markBadArgument`. -/
def Value.markBadArgument (v : Value) : Value :=
  { v with optionAssignCount := v.optionAssignCount + 1, hasErrors := true }

/-- `Value::onOptionStarted`. -/
def Value.onOptionStarted (v : Value) : Value :=
  { v with optionAssignCount := 0 }

/-- `doReset`: restore the destination to its empty/default representation. -/
def Dest.reset : Dest → Dest
  | Dest.voidDest => Dest.voidDest
  | Dest.scalar _ => Dest.scalar none
  | Dest.vector _ => Dest.vector []

/-- `Value::reset`. -/
def Value.reset (v : Value) : Value :=
  { assignCount := 0, optionAssignCount := 0, hasErrors := false, dest := v.dest.reset }

/-- `argument_parser::OptionGroup`. -/
structure OptionGroup where
  name : String
  isRequired : Bool
  isExclusive : Bool
deriving DecidableEq, Repr

/-- `argument_parser::Option` (named `Opt`; `Option` is taken by Lean). -/
structure Opt where
  value : Value
  conv : String → Option String
  shortName : String
  longName : String
  flagValue : String
  choices : List String
  group : Option OptionGroup
  minArgs : Int
  maxArgs : Int
  isRequired : Bool
  isVectorValue : Bool

/-- A freshly constructed `Option` over a `VoidValue` (also the `getD`
fallback for list indexing; the parser only ever uses in-range indices). -/
def defaultOpt : Opt :=
  { value := { assignCount := 0, optionAssignCount := 0, hasErrors := false, dest := Dest.voidDest }
    conv := fun _ => none
    shortName := ""
    longName := ""
    flagValue := "1"
    choices := []
    group := none
    minArgs := 0
    maxArgs := 0
    isRequired := false
    isVectorValue := false }

instance : Inhabited Opt := ⟨defaultOpt⟩

def Opt.getName (o : Opt) : String :=
  if o.longName.isEmpty then o.shortName else o.longName

def Opt.hasName (o : Opt) (name : String) : Bool :=
  name == o.shortName || name == o.longName

def Opt.setShortName (o : Opt) (n : String) : Opt := { o with shortName := n }

def Opt.setLongName (o : Opt) (n : String) : Opt := { o with longName := n }

/-- `Option::setNArgs`. -/
def Opt.setNArgs (o : Opt) (count : Int) : Opt :=
  { o with minArgs := max 0 count, maxArgs := max 0 count }

/-- `Option::setMinArgs`. -/
def Opt.setMinArgs (o : Opt) (count : Int) : Opt :=
  { o with minArgs := max 0 count, maxArgs := -1 }

/-- `Option::setMaxArgs`. -/
def Opt.setMaxArgs (o : Opt) (count : Int) : Opt :=
  { o with minArgs := 0, maxArgs := max 0 count }

def Opt.setGroup (o : Opt) (g : OptionGroup) : Opt := { o with group := some g }

def Opt.onOptionStarted (o : Opt) : Opt := { o with value := o.value.onOptionStarted }

def Opt.resetValue (o : Opt) : Opt := { o with value := o.value.reset }

def Opt.acceptsAnyArguments (o : Opt) : Bool :=
  o.minArgs > 0 || o.maxArgs != 0

def Opt.willAcceptArgument (o : Opt) : Bool :=
  o.maxArgs < 0 || (o.value.optionAssignCount : Int) < o.maxArgs

def Opt.needsMoreArguments (o : Opt) : Bool :=
  (o.value.optionAssignCount : Int) < o.minArgs

def Opt.hasVectorValue (o : Opt) : Bool := o.isVectorValue

def Opt.wasAssigned (o : Opt) : Bool := o.value.assignCount > 0

def Opt.wasAssignedThroughThisOption (o : Opt) : Bool := o.value.optionAssignCount > 0

/-- Outcome of `Option::setValue`: normal return, thrown
`InvalidChoiceError`, or a thrown conversion error. -/
inductive SetResult where
  | ok
  | invalidChoice
  | convError
deriving DecidableEq, Repr

/-- `Option::setValue` (the assign-action is absent, as in the default
configuration, so the slot is set directly after the choices check). -/
def Opt.setValue (o : Opt) (s : String) : Opt × SetResult :=
  if !o.choices.isEmpty && o.choices.all (fun v => v != s) then
    ({ o with value := o.value.markBadArgument }, SetResult.invalidChoice)
  else
    match Value.setValue o.conv o.value s with
    | (v, true) => ({ o with value := v }, SetResult.convError)
    | (v, false) => ({ o with value := v }, SetResult.ok)

/-- `argument_parser::ParseError`. -/
structure ParseError where
  option : String
  errorCode : EError
deriving DecidableEq, Repr

/-- `argument_parser::ParseResult`. -/
structure ParseResult where
  ignoredArguments : List String
  errors : List ParseError
deriving DecidableEq, Repr

def addErrorTo (r : ParseResult) (name : String) (code : EError) : ParseResult :=
  { r with errors := r.errors ++ [⟨name, code⟩] }

/-- `Parser::setValue`: calls `Option::setValue` and converts the two
caught exception kinds into error entries. -/
def setValueCaught (o : Opt) (s : String) : Opt × List ParseError :=
  match Opt.setValue o s with
  | (o2, SetResult.ok) => (o2, [])
  | (o2, SetResult.invalidChoice) => (o2, [⟨o2.getName, EError.INVALID_CHOICE⟩])
  | (o2, SetResult.convError) => (o2, [⟨o2.getName, EError.CONVERSION_ERROR⟩])

/-- The state of the private `Parser` class, together with the option lists
of the `argument_parser` it mutates in place. -/
structure PState where
  options : List Opt
  positional : List Opt
  ignoreOptions : Bool
  position : Nat
  active : Option Nat
  result : ParseResult

/-- Assign `arg` through the named option at index `i` of `options`. -/
def setOptionAt (s : PState) (i : Nat) (arg : String) : PState :=
  let o := s.options.getD i defaultOpt
  let p := setValueCaught o arg
  { s with options := s.options.set i p.1
           result := { s.result with errors := s.result.errors ++ p.2 } }

/-- Assign `arg` through the positional at index `i` of `positional`. -/
def setPositionalAt (s : PState) (i : Nat) (arg : String) : PState :=
  let o := s.positional.getD i defaultOpt
  let p := setValueCaught o arg
  { s with positional := s.positional.set i p.1
           result := { s.result with errors := s.result.errors ++ p.2 } }

/-- An exception that escapes the parse: `Parser::closeOption` calls
`Option::setValue` directly (argparser.h:802), not through the catching
`Parser::setValue`, so an `InvalidChoiceError` or a conversion exception
thrown while assigning the flag-default value propagates uncaught out of
`parse` and `parse_args`. -/
inductive UncaughtExc where
  | invalidChoice (value : String)
  | conversionError
deriving DecidableEq, Repr

/-- `Parser::closeOption`.  The flag-default assignment goes through
`Option::setValue` with no catch: a thrown exception aborts the parse
(`Except.error`; the partially mutated slot state is then never returned
through `parse_args`). -/
def closeOption (s : PState) : Except UncaughtExc PState :=
  match s.active with
  | none => Except.ok { s with active := none }
  | some i =>
    let o := s.options.getD i defaultOpt
    if o.needsMoreArguments then
      Except.ok
        { s with active := none, result := addErrorTo s.result o.getName EError.MISSING_ARGUMENT }
    else if o.willAcceptArgument && !o.wasAssignedThroughThisOption then
      match Opt.setValue o o.flagValue with
      | (o2, SetResult.ok) => Except.ok { s with options := s.options.set i o2, active := none }
      | (_, SetResult.invalidChoice) => Except.error (UncaughtExc.invalidChoice o.flagValue)
      | (_, SetResult.convError) => Except.error UncaughtExc.conversionError
    else
      Except.ok { s with active := none }

/-- Split an `=value` suffix off an option token (`name.find( "=" )`). -/
def splitEq (token : String) : String × String :=
  let cs := token.toList
  match cs.findIdx? (fun c => c == '=') with
  | some i => (⟨cs.take i⟩, ⟨cs.drop (i + 1)⟩)
  | none => (token, "")

/-- `Parser::findOption`, as the index of the first matching option. -/
def findOptionIdx (options : List Opt) (name : String) : Option Nat :=
  List.findIdx? (fun o => o.hasName name) options

/-- The known-option branch of `Parser::startOption`: notify the slot that
a new occurrence begins, mark the option active or assign the flag default,
then handle an `=value` suffix. -/
def startOptionFound (s : PState) (i : Nat) (name arg : String) : PState :=
  let o := (s.options.getD i defaultOpt).onOptionStarted
  let s := { s with options := s.options.set i o }
  let s :=
    if o.willAcceptArgument then { s with active := some i }
    else setOptionAt s i o.flagValue
  if arg.isEmpty then s
  else
    let o2 := s.options.getD i defaultOpt
    if o2.willAcceptArgument then setOptionAt s i arg
    else { s with result := addErrorTo s.result name EError.FLAG_PARAMETER }

/-- `Parser::startOption`.  The `closeOption` call at its start may throw;
everything after it assigns only through the catching `Parser::setValue`. -/
def startOption (s : PState) (token : String) : Except UncaughtExc PState :=
  match (if s.active.isSome then closeOption s else Except.ok s) with
  | Except.error e => Except.error e
  | Except.ok s =>
    let p := splitEq token
    match findOptionIdx s.options p.1 with
    | some i => Except.ok (startOptionFound s i p.1 p.2)
    | none => Except.ok { s with result := addErrorTo s.result p.1 EError.UNKNOWN_OPTION }

/-- The search inside `Parser::addFreeArgument`: the first positional at
index `≥ i` (within the dropped list) that still accepts an argument. -/
def findAcceptingFrom : List Opt → Nat → Option Nat
  | [], _ => none
  | o :: rest, i => if o.willAcceptArgument then some i else findAcceptingFrom rest (i + 1)

/-- `Parser::addFreeArgument`. -/
def addFreeArgument (s : PState) (arg : String) : PState :=
  match findAcceptingFrom (s.positional.drop s.position) s.position with
  | some q => setPositionalAt { s with position := q } q arg
  | none =>
    { s with position := s.positional.length
             result := { s.result with
                         ignoredArguments := s.result.ignoredArguments ++ [arg] } }

/-- The combined short-option loop (`for i in 1..size: startOption`): an
exception thrown by a `startOption` aborts the loop. -/
def startOptionCluster : PState → List Char → Except UncaughtExc PState
  | s, [] => Except.ok s
  | s, c :: cs =>
    match startOption s (String.mk ['-', c]) with
    | Except.error e => Except.error e
    | Except.ok s2 => startOptionCluster s2 cs

/-- One iteration of the token loop in `Parser::parse`. -/
def parseToken (s : PState) (arg : String) : Except UncaughtExc PState :=
  if arg == "--" then Except.ok { s with ignoreOptions := true }
  else if s.ignoreOptions then Except.ok (addFreeArgument s arg)
  else if arg.toList.take 2 == ['-', '-'] then startOption s arg
  else if arg.toList.take 1 == ['-'] then
    if arg.toList.length == 2 then startOption s arg
    else startOptionCluster s (arg.toList.drop 1)
  else
    match s.active with
    | some i =>
      let o := s.options.getD i defaultOpt
      if o.willAcceptArgument then
        let s2 := setOptionAt s i arg
        let o2 := s2.options.getD i defaultOpt
        if !o2.willAcceptArgument then closeOption s2 else Except.ok s2
      else Except.ok s
    | none => Except.ok (addFreeArgument s arg)

/-- The `for ( auto& arg : args )` loop of `Parser::parse`: an uncaught
exception aborts it. -/
def parseTokensLoop : PState → List String → Except UncaughtExc PState
  | s, [] => Except.ok s
  | s, a :: as =>
    match parseToken s a with
    | Except.error e => Except.error e
    | Except.ok s2 => parseTokensLoop s2 as

/-- `Parser::parse`: clear the result, loop over the tokens, close a still
active option at end of input. -/
def parseTokens (s : PState) (args : List String) : Except UncaughtExc PState :=
  let s := { s with result := { ignoredArguments := [], errors := [] } }
  match parseTokensLoop s args with
  | Except.error e => Except.error e
  | Except.ok s => if s.active.isSome then closeOption s else Except.ok s

/-- `argument_parser::EExitMode`. -/
inductive EExitMode where
  | EXIT_TERMINATE
  | EXIT_THROW
  | EXIT_RETURN
deriving DecidableEq, Repr

/-- The registry: `argument_parser`'s data that the core reads.
`helpOptionNames` embeds the `std::set` `mHelpOptionNames` (kept in its
sorted iteration order); `activeGroup` embeds `mpActiveGroup`. -/
structure ArgumentParser where
  options : List Opt
  positional : List Opt
  helpOptionNames : List String
  activeGroup : Option OptionGroup
  exitMode : EExitMode

/-- `reportMissingOptions`. -/
def reportMissingOptions (options positional : List Opt) (r : ParseResult) : ParseResult :=
  let e1 := options.filterMap fun o =>
    if o.isRequired && !o.wasAssigned then some ⟨o.getName, EError.MISSING_OPTION⟩ else none
  let e2 := positional.filterMap fun o =>
    if o.needsMoreArguments then some ⟨o.getName, EError.MISSING_ARGUMENT⟩ else none
  { r with errors := r.errors ++ e1 ++ e2 }

/-- Lexicographic comparison of char lists by code point: the order of
`std::string operator<` (identical to byte order on the ASCII names used
here). -/
def charListLt : List Char → List Char → Bool
  | _, [] => false
  | [], _ :: _ => true
  | a :: as, b :: bs =>
    if a.toNat < b.toNat then true
    else if b.toNat < a.toNat then false
    else charListLt as bs

/-- `std::string` comparison, used as the `std::map` / `std::set` key
order. -/
def strLt (a b : String) : Bool := charListLt a.toList b.toList

/-- Sorted insertion without duplicates: the key order of a `std::map` /
`std::set` over `std::string`. -/
def insertSorted (x : String) : List String → List String
  | [] => [x]
  | y :: ys => if strLt x y then x :: y :: ys else if x == y then y :: ys else y :: insertSorted x ys

/-- The sorted distinct keys of a `std::map` built by inserting the given
strings in order. -/
def dedupSort (l : List String) : List String :=
  l.foldr insertSorted []

/-- `counts[pGroup->getName()]` for `reportExclusiveViolations`: the names,
in declaration order, of the assigned members of exclusive group `gname`. -/
def assignedExclusiveMembers (options : List Opt) (gname : String) : List String :=
  (options.filter fun o =>
    match o.group with
    | some g => g.isExclusive && g.name == gname && o.wasAssigned
    | none => false).map Opt.getName

/-- The keys of the `counts` map in `reportExclusiveViolations`. -/
def exclusiveAssignedGroupNames (options : List Opt) : List String :=
  dedupSort (options.filterMap fun o =>
    match o.group with
    | some g => if g.isExclusive && o.wasAssigned then some g.name else none
    | none => none)

/-- The errors appended by `reportExclusiveViolations`. -/
def exclusiveViolationErrors (options : List Opt) : List ParseError :=
  (exclusiveAssignedGroupNames options).filterMap fun gname =>
    if 1 < (assignedExclusiveMembers options gname).length then
      some ⟨(assignedExclusiveMembers options gname).headD "", EError.EXCLUSIVE_OPTION⟩
    else none

/-- `reportExclusiveViolations`. -/
def reportExclusiveViolations (options : List Opt) (r : ParseResult) : ParseResult :=
  { r with errors := r.errors ++ exclusiveViolationErrors options }

/-- The keys of the `counts` map in `reportMissingGroups` (inserted by
`operator[]` for every member of a required group, assigned or not). -/
def requiredGroupNames (options : List Opt) : List String :=
  dedupSort (options.filterMap fun o =>
    match o.group with
    | some g => if g.isRequired then some g.name else none
    | none => none)

/-- The number of assigned members of required group `gname`. -/
def assignedRequiredCount (options : List Opt) (gname : String) : Nat :=
  (options.filter fun o =>
    (match o.group with
     | some g => g.isRequired && g.name == gname
     | none => false) && o.wasAssigned).length

/-- `reportMissingGroups`. -/
def reportMissingGroups (options : List Opt) (r : ParseResult) : ParseResult :=
  { r with errors := r.errors ++ (requiredGroupNames options).filterMap fun gname =>
      if assignedRequiredCount options gname < 1 then
        some ⟨gname, EError.MISSING_OPTION_GROUP⟩
      else none }

/-- `verifyDefinedOptions`: the first required option sitting in an
exclusive group, as `(option name, group name)`, or `none`. -/
def firstRequiredExclusive (options : List Opt) : Option (String × String) :=
  options.findSome? fun o =>
    if o.isRequired then
      match o.group with
      | some g => if g.isExclusive then some (o.getName, g.name) else none
      | none => none
    else none

/-- Exceptional exits of `parse_args`: a declaration-time exception
(`RequiredExclusiveOption`), `exit(0)`, a thrown `ParserTerminated`, or an
exception from `closeOption`'s direct `Option::setValue` call that
propagates uncaught through `parse_args`. -/
inductive ParseExit where
  | configError (optionName groupName : String)
  | terminated (code : Nat)
  | threwTerminated (arg : String) (code : EError)
  | uncaught (e : UncaughtExc)
deriving DecidableEq, Repr

/-- The default help option installed by `add_help_option()`: a `VoidValue`
option named `--help` / `-h`. -/
def helpOpt : Opt :=
  { defaultOpt with longName := "--help", shortName := "-h" }

/-- The implicit `add_help_option()` call at the top of `parse_args`.  Like
`tryAddArgument`, it attaches the active group to the new option when one is
set.  `"--help"` precedes `"-h"` in the `std::set` order. -/
def addDefaultHelp (ap : ArgumentParser) : ArgumentParser :=
  if ap.helpOptionNames.isEmpty then
    { ap with options := ap.options ++ [{ helpOpt with group := ap.activeGroup }]
              helpOptionNames := ["--help", "-h"] }
  else ap

/-- The per-parse reset of all value slots. -/
def resetAll (ap : ArgumentParser) : ArgumentParser :=
  { ap with options := ap.options.map Opt.resetValue
            positional := ap.positional.map Opt.resetValue }

/-- `argument_parser::exit_parser`.  The `ArgumentParser` is returned
alongside the result so callers can observe the registry state. -/
def exitParser (ap : ArgumentParser) (arg : String) (code : EError) :
    Except ParseExit (ParseResult × ArgumentParser) :=
  match ap.exitMode with
  | EExitMode.EXIT_TERMINATE => Except.error (ParseExit.terminated 0)
  | EExitMode.EXIT_THROW => Except.error (ParseExit.threwTerminated arg code)
  | EExitMode.EXIT_RETURN =>
    Except.ok ({ ignoredArguments := [], errors := [⟨arg, code⟩] }, ap)

/-- The initial state of the `Parser` constructed inside `parse_args`. -/
def initPState (ap : ArgumentParser) : PState :=
  { options := ap.options
    positional := ap.positional
    ignoreOptions := false
    position := 0
    active := none
    result := { ignoredArguments := [], errors := [] } }

/-- The part of `parse_args` that runs on the freshly reset registry: the
verbatim help scan, tokenizing, and the validation passes. -/
def parseArgsReset (ap : ArgumentParser) (args : List String) :
    Except ParseExit (ParseResult × ArgumentParser) :=
  match args.find? (fun a => ap.helpOptionNames.contains a) with
  | some harg => exitParser ap harg EError.HELP_REQUESTED
  | none =>
    match parseTokens (initPState ap) args with
    | Except.error e => Except.error (ParseExit.uncaught e)
    | Except.ok st =>
      let r := reportMissingOptions st.options st.positional st.result
      let r := reportExclusiveViolations st.options r
      let r := reportMissingGroups st.options r
      Except.ok (r, { ap with options := st.options, positional := st.positional })

/-- `parse_args` after the implicit help-option installation:
`verifyDefinedOptions`, then the per-parse reset, then the rest. -/
def parseArgsCore (ap : ArgumentParser) (args : List String) :
    Except ParseExit (ParseResult × ArgumentParser) :=
  match firstRequiredExclusive ap.options with
  | some p => Except.error (ParseExit.configError p.1 p.2)
  | none => parseArgsReset (resetAll ap) args

/-- `argument_parser::parse_args`. -/
def parse_args (ap : ArgumentParser) (args : List String) :
    Except ParseExit (ParseResult × ArgumentParser) :=
  parseArgsCore (addDefaultHelp ap) args

/-- `argument_parser::trySetNames`. -/
def trySetNamesAux : Opt → List String → Except String Opt
  | o, [] => Except.ok o
  | o, n :: rest =>
    if n.isEmpty || n == "-" || n == "--" || n.toList.take 1 != ['-'] then trySetNamesAux o rest
    else if n.toList.take 2 == ['-', '-'] then trySetNamesAux (o.setLongName n) rest
    else if n.toList.length > 2 then Except.error "Short option name has too many characters."
    else trySetNamesAux (o.setShortName n) rest

def trySetNames (o : Opt) (names : List String) : Except String Opt :=
  match trySetNamesAux o names with
  | Except.ok o2 =>
    if o2.getName.isEmpty then Except.error "An option must have a name." else Except.ok o2
  | Except.error e => Except.error e

/-- `std::isspace` in the default C locale: space, `'\t'`, `'\n'`, `'\v'`,
`'\f'`, `'\r'`. -/
def isSpaceChar (c : Char) : Bool :=
  c == ' ' || c == '\t' || c == '\n' || c == '\x0B' || c == '\x0C' || c == '\r'

/-- `argument_parser::tryAddArgument` (the returned `OptionConfig` handle is
dropped; thrown `std::invalid_argument`s become `Except.error`). -/
def tryAddArgument (ap : ArgumentParser) (newOption : Opt) (names : List String) :
    Except String ArgumentParser :=
  let names := names.filter fun n => !n.isEmpty
  if names.isEmpty then Except.error "An argument must have a name."
  else if names.any (fun n => n.toList.any isSpaceChar) then
    Except.error "Argument names must not contain spaces."
  else if names.all (fun n => !(n.toList.take 1 == ['-'])) then
    let o := newOption.setLongName (names.headD "arg")
    let o := if o.hasVectorValue then o.setMinArgs 0 else o.setNArgs 1
    let o :=
      match ap.activeGroup with
      | some g => if !g.isExclusive then o.setGroup g else o
      | none => o
    Except.ok { ap with positional := ap.positional ++ [o] }
  else if names.all (fun n => n.toList.take 1 == ['-']) then
    match trySetNames newOption names with
    | Except.error e => Except.error e
    | Except.ok o =>
      let o :=
        match ap.activeGroup with
        | some g => o.setGroup g
        | none => o
      Except.ok { ap with options := ap.options ++ [o] }
  else Except.error "The argument must be either positional or an option."

/-! ## Concrete registries used by the claim scenarios -/

/-- The converter of a `std::string`-typed destination
(`from_string<std::string>::convert` is the identity and never throws). -/
def strConv : String → Option String := fun s => some s

/-- A zero-arity option with a scalar string destination and short name. -/
def mkFlag (short : String) : Opt :=
  { defaultOpt with
    shortName := short
    conv := strConv
    value := { assignCount := 0, optionAssignCount := 0, hasErrors := false
               dest := Dest.scalar none } }

/-- A zero-arity option with a scalar string destination and long name. -/
def mkLong (long : String) : Opt :=
  { defaultOpt with
    longName := long
    conv := strConv
    value := { assignCount := 0, optionAssignCount := 0, hasErrors := false
               dest := Dest.scalar none } }

/-- A registry over the given named options, configured with the `return`
exit policy and no declared help option (so `parse_args` installs the
default `--help` / `-h` pair). -/
def mkAP (opts : List Opt) : ArgumentParser :=
  { options := opts
    positional := []
    helpOptionNames := []
    activeGroup := none
    exitMode := EExitMode.EXIT_RETURN }

/-- The destinations of the named options after a `parse_args` call. -/
def destsOf (e : Except ParseExit (ParseResult × ArgumentParser)) : List Dest :=
  match e with
  | Except.ok (_, ap) => ap.options.map (fun o => o.value.dest)
  | Except.error _ => []

/-- The error list of a `parse_args` call that returned. -/
def errorsOf (e : Except ParseExit (ParseResult × ArgumentParser)) : List ParseError :=
  match e with
  | Except.ok (r, _) => r.errors
  | Except.error _ => []

/-- The free-argument list of a `parse_args` call that returned. -/
def ignoredOf (e : Except ParseExit (ParseResult × ArgumentParser)) : List String :=
  match e with
  | Except.ok (r, _) => r.ignoredArguments
  | Except.error _ => []

/-! ## C1: the `setValue` contract of a Value slot -/

/-- A converter that always fails (models `std::stol` throwing on every
input). -/
def c1FailConv : String → Option String := fun _ => none

/-- A fresh scalar value slot. -/
def c1Value : Value :=
  { assignCount := 0, optionAssignCount := 0, hasErrors := false, dest := Dest.scalar none }

/-- C1, counterexample.  The claim asserts that a failing conversion leaves
`assignCount` and `optionAssignCount` unchanged and sets `hasErrors`.  On a
fresh scalar slot with an always-failing converter, `setValue` leaves
neither counter unchanged (both become 1, because `Value::setValue`
increments them before calling `doSetValue`) and `hasErrors` stays
`false` (only `markBadArgument` sets it). -/
theorem c1_counterexample :
    ¬ ((Value.setValue c1FailConv c1Value "x").1.assignCount = c1Value.assignCount ∧
       (Value.setValue c1FailConv c1Value "x").1.optionAssignCount = c1Value.optionAssignCount ∧
       (Value.setValue c1FailConv c1Value "x").1.hasErrors = true) := by
  decide

/-- C1, amended.  `setValue(raw)` converts `raw` to the typed destination.
On conversion failure the exception propagates (and the parser turns it
into a CONVERSION error), but both counters have already been incremented
and `hasErrors` is left unchanged, with the destination untouched.  On
success it increments both counters, leaves `hasErrors` unchanged, and for
a vector destination appends the converted value rather than
overwriting. -/
theorem c1_amended_contract (conv : String → Option String) (v : Value) (s : String) :
    (conv s = none → v.dest ≠ Dest.voidDest →
      Value.setValue conv v s =
        ({ v with assignCount := v.assignCount + 1
                  optionAssignCount := v.optionAssignCount + 1 }, true))
    ∧
    (∀ c, conv s = some c →
      (Value.setValue conv v s).2 = false ∧
      (Value.setValue conv v s).1.assignCount = v.assignCount + 1 ∧
      (Value.setValue conv v s).1.optionAssignCount = v.optionAssignCount + 1 ∧
      (Value.setValue conv v s).1.hasErrors = v.hasErrors ∧
      (∀ xs, v.dest = Dest.vector xs →
        (Value.setValue conv v s).1.dest = Dest.vector (xs ++ [c])))
    ∧
    (∀ o : Opt, o.choices = [] → o.conv = conv → o.value = v →
      conv s = none → v.dest ≠ Dest.voidDest →
      (setValueCaught o s).2 = [⟨o.getName, EError.CONVERSION_ERROR⟩]) := by
  refine ⟨?_, ?_, ?_⟩
  · intro hc hd
    unfold Value.setValue Value.doSetValue
    cases hv : v.dest with
    | voidDest => exact absurd hv hd
    | scalar val => simp [hv, hc]
    | vector xs => simp [hv, hc]
  · intro c hc
    unfold Value.setValue Value.doSetValue
    cases hv : v.dest with
    | voidDest => simp [hv]
    | scalar val => simp [hv, hc]
    | vector xs => simp [hv, hc]
  · intro o hch hcv hval hc hd
    unfold setValueCaught Opt.setValue
    rw [hch, hcv, hval]
    unfold Value.setValue Value.doSetValue
    cases hv : v.dest with
    | voidDest => exact absurd hv hd
    | scalar val => simp [hv, hc, Opt.getName]
    | vector xs => simp [hv, hc, Opt.getName]

/-- C1 witness: the amended contract applied to a fresh scalar slot and a
failing converter. -/
theorem c1_amended_contract_witness :
    Value.setValue c1FailConv c1Value "x" =
      ({ c1Value with assignCount := 1, optionAssignCount := 1 }, true) :=
  (c1_amended_contract c1FailConv c1Value "x").1 rfl (by decide)

/-! ## C2: combined short-option clusters -/

/-- Registry with zero-arity options `-a`, `-b`, `-d`. -/
def c2ap1 : ArgumentParser := mkAP [mkFlag "-a", mkFlag "-b", mkFlag "-d"]

/-- Registry where `-d` takes exactly one argument instead. -/
def c2ap2 : ArgumentParser := mkAP [mkFlag "-a", mkFlag "-b", (mkFlag "-d").setNArgs 1]

/-- C2.  Parsing the single token `-abd` against zero-arity `-a -b -d`
assigns each of the three options its flag-default value `"1"`; with `-d`
declared to take exactly one argument, parsing `-abd 4213` assigns `"4213"`
to `-d` only, while `-a` and `-b` receive their flag-default values.  (The
trailing `voidDest` entry is the auto-installed `--help` option.)  No
errors are produced in either parse. -/
theorem c2_short_option_clusters :
    (destsOf (parse_args c2ap1 ["-abd"]) =
        [Dest.scalar (some "1"), Dest.scalar (some "1"), Dest.scalar (some "1"), Dest.voidDest]
      ∧ errorsOf (parse_args c2ap1 ["-abd"]) = [])
    ∧
    (destsOf (parse_args c2ap2 ["-abd", "4213"]) =
        [Dest.scalar (some "1"), Dest.scalar (some "1"), Dest.scalar (some "4213"), Dest.voidDest]
      ∧ errorsOf (parse_args c2ap2 ["-abd", "4213"]) = []) := by
  exact ⟨⟨by decide, by decide⟩, ⟨by decide, by decide⟩⟩

/-! ## Facts about free-argument routing (shared by C3 and C10) -/

theorem setPositionalAt_options (s : PState) (i : Nat) (a : String) :
    (setPositionalAt s i a).options = s.options := rfl

theorem setPositionalAt_active (s : PState) (i : Nat) (a : String) :
    (setPositionalAt s i a).active = s.active := rfl

theorem setPositionalAt_ignoreOptions (s : PState) (i : Nat) (a : String) :
    (setPositionalAt s i a).ignoreOptions = s.ignoreOptions := rfl

theorem addFreeArgument_options (s : PState) (a : String) :
    (addFreeArgument s a).options = s.options := by
  unfold addFreeArgument
  split <;> rfl

theorem addFreeArgument_active (s : PState) (a : String) :
    (addFreeArgument s a).active = s.active := by
  unfold addFreeArgument
  split <;> rfl

theorem addFreeArgument_ignoreOptions (s : PState) (a : String) :
    (addFreeArgument s a).ignoreOptions = s.ignoreOptions := by
  unfold addFreeArgument
  split <;> rfl

/-- In ignore-options mode, every token other than `--` is handed to
`addFreeArgument` (which cannot throw) and the named options are never
consulted. -/
theorem parseToken_ignoreMode (s : PState) (arg : String) (hig : s.ignoreOptions = true)
    (hdd : arg ≠ "--") : parseToken s arg = Except.ok (addFreeArgument s arg) := by
  have hb : (arg == "--") = false := by
    simp only [beq_eq_false_iff_ne, ne_eq]
    exact hdd
  unfold parseToken
  simp [hb, hig]

/-! ## C3: the `--` terminator -/

/-- Registry with `--value` taking one argument and flag `--skipped`. -/
def c3ap : ArgumentParser := mkAP [(mkLong "--value").setNArgs 1, mkLong "--skipped"]

/-- C3.  After a bare `--` token the parser is in ignore-options mode, in
which every subsequent token is routed through `addFreeArgument` (to the
positional cursor or the free-argument list) and is never matched as an
option: the named options, the active option and the mode itself are all
unchanged (a further `--` token only re-sets the mode flag).  Concretely,
parsing `--value 5 -- --skipped` assigns `"5"` to `--value`, leaves
`--skipped` unassigned (its slot still empty), produces no errors, and
records `--skipped` as a free argument. -/
theorem c3_dashdash_terminates_options :
    (∀ (s : PState) (arg : String), s.ignoreOptions = true → arg ≠ "--" →
      parseToken s arg = Except.ok (addFreeArgument s arg) ∧
      (addFreeArgument s arg).options = s.options ∧
      (addFreeArgument s arg).active = s.active ∧
      (addFreeArgument s arg).ignoreOptions = true)
    ∧ (∀ s : PState, parseToken s "--" = Except.ok { s with ignoreOptions := true })
    ∧
    (destsOf (parse_args c3ap ["--value", "5", "--", "--skipped"]) =
        [Dest.scalar (some "5"), Dest.scalar none, Dest.voidDest]
      ∧ errorsOf (parse_args c3ap ["--value", "5", "--", "--skipped"]) = []
      ∧ ignoredOf (parse_args c3ap ["--value", "5", "--", "--skipped"]) = ["--skipped"]) := by
  refine ⟨?_, ?_, by decide, by decide, by decide⟩
  · intro s arg hig hdd
    exact ⟨parseToken_ignoreMode s arg hig hdd, addFreeArgument_options s arg,
      addFreeArgument_active s arg, (addFreeArgument_ignoreOptions s arg).trans hig⟩
  · intro s
    rfl

/-- C3 witness: the general part applied in ignore-options mode to the
token `"x"` over the (already reset) `c3ap` option list. -/
theorem c3_dashdash_terminates_options_witness :
    parseToken
        { options := c3ap.options, positional := [], ignoreOptions := true, position := 0
          active := none, result := { ignoredArguments := [], errors := [] } } "x" =
      Except.ok (addFreeArgument
        { options := c3ap.options, positional := [], ignoreOptions := true, position := 0
          active := none, result := { ignoredArguments := [], errors := [] } } "x") :=
  (c3_dashdash_terminates_options.1
    { options := c3ap.options, positional := [], ignoreOptions := true, position := 0
      active := none, result := { ignoredArguments := [], errors := [] } } "x" rfl
    (by decide)).1

/-! ## List and mutation lemmas shared by the option-start claims -/

theorem findIdx?_some_lt {α : Type} (p : α → Bool) :
    ∀ (l : List α) (st i : Nat), List.findIdx? p l st = some i → i < st + l.length := by
  intro l
  induction l with
  | nil => intro st i h; simp [List.findIdx?] at h
  | cons x xs ih =>
    intro st i h
    rw [List.findIdx?_cons] at h
    by_cases hp : p x = true
    · rw [if_pos hp] at h
      injection h with h
      simp [List.length_cons]
      omega
    · rw [if_neg hp] at h
      have := ih (st + 1) i h
      simp [List.length_cons]
      omega

theorem getD_set_self {α : Type} (l : List α) (i : Nat) (a d : α) (h : i < l.length) :
    (l.set i a).getD i d = a := by
  rw [List.getD_eq_getElem?_getD, List.getElem?_set_self h]
  rfl

theorem Opt.onOptionStarted_maxArgs (o : Opt) : o.onOptionStarted.maxArgs = o.maxArgs := rfl

/-- A pure flag (`mMaxArgs == 0`) never accepts an argument:
`optionAssignCount` is a non-negative `int`. -/
theorem willAcceptArgument_false_of_maxArgs_zero (o : Opt) (h : o.maxArgs = 0) :
    o.willAcceptArgument = false := by
  unfold Opt.willAcceptArgument
  rw [h]
  simp

/-- `Option::setValue` mutates only the value slot. -/
theorem OptSetValue_value_only (o : Opt) (a : String) :
    (Opt.setValue o a).1 = { o with value := (Opt.setValue o a).1.value } := by
  unfold Opt.setValue
  split
  · rfl
  · rcases h : Value.setValue o.conv o.value a with ⟨v, b⟩
    cases b <;> simp [h]

theorem setValueCaught_fst (o : Opt) (a : String) :
    (setValueCaught o a).1 = (Opt.setValue o a).1 := by
  unfold setValueCaught
  rcases h : Opt.setValue o a with ⟨o2, r⟩
  cases r <;> simp [h]

theorem setValueCaught_maxArgs (o : Opt) (a : String) :
    (setValueCaught o a).1.maxArgs = o.maxArgs := by
  rw [setValueCaught_fst, OptSetValue_value_only]

/-! ## C4: `--opt=value` on a pure flag -/

/-- The known-option branch on a pure flag (`mMaxArgs == 0`): the
flag-default value is assigned immediately, and an `=value` suffix
additionally yields a FLAG_PARAMETER error. -/
theorem startOptionFound_pure_flag (st : PState) (i : Nat) (name arg : String)
    (hfind : findOptionIdx st.options name = some i)
    (hmax : (st.options.getD i defaultOpt).maxArgs = 0) :
    startOptionFound st i name arg =
      (let o := (st.options.getD i defaultOpt).onOptionStarted
       let s1 := { st with options := st.options.set i o }
       let s2 := setOptionAt s1 i o.flagValue
       if arg.isEmpty then s2
       else { s2 with result := addErrorTo s2.result name EError.FLAG_PARAMETER }) := by
  have hfind' : List.findIdx? (fun o => o.hasName name) st.options = some i := hfind
  have hi : i < st.options.length := by
    have := findIdx?_some_lt (fun o => o.hasName name) st.options 0 i hfind'
    omega
  have hwa : ((st.options.getD i defaultOpt).onOptionStarted).willAcceptArgument = false :=
    willAcceptArgument_false_of_maxArgs_zero _
      ((Opt.onOptionStarted_maxArgs _).trans hmax)
  have hgo2 :
      ∀ s1 : PState, s1.options = st.options.set i (st.options.getD i defaultOpt).onOptionStarted →
      ((setOptionAt s1 i ((st.options.getD i defaultOpt).onOptionStarted).flagValue).options.getD i
        defaultOpt).willAcceptArgument = false := by
    intro s1 hs1
    apply willAcceptArgument_false_of_maxArgs_zero
    unfold setOptionAt
    rw [hs1]
    have hlen : i < (st.options.set i (st.options.getD i defaultOpt).onOptionStarted).length := by
      rw [List.length_set]; exact hi
    rw [getD_set_self _ _ _ _ hlen]
    rw [setValueCaught_maxArgs]
    rw [getD_set_self _ _ _ _ hi]
    exact (Opt.onOptionStarted_maxArgs _).trans hmax
  unfold startOptionFound
  simp only [hwa, Bool.false_eq_true, if_false]
  by_cases he : arg.isEmpty = true
  · rw [if_pos he, if_pos he]
  · rw [if_neg he, if_neg he]
    rw [hgo2 _ rfl]
    simp only [Bool.false_eq_true, if_false]

/-- Registry with the single pure flag `--opt`. -/
def c4ap : ArgumentParser := mkAP [mkLong "--opt"]

/-- C4.  Starting a known pure-flag option from a token with an `=value`
suffix returns normally and produces exactly the same state as starting it
without the suffix (in particular the suffix string is never assigned to
the slot; the flag default is), plus exactly one FLAG_PARAMETER error.
Concretely, parsing `--opt=value` yields the single error
`(--opt, FLAG_PARAMETER)` and the slot holds the flag-default `"1"`, not
`"value"`. -/
theorem c4_flag_parameter :
    (∀ (st : PState) (i : Nat), st.active = none →
      findOptionIdx st.options "--opt" = some i →
      (st.options.getD i defaultOpt).maxArgs = 0 →
      startOption st "--opt=value" =
        Except.ok { startOptionFound st i "--opt" "" with
          result := addErrorTo (startOptionFound st i "--opt" "").result "--opt"
            EError.FLAG_PARAMETER } ∧
      startOption st "--opt" = Except.ok (startOptionFound st i "--opt" ""))
    ∧ (errorsOf (parse_args c4ap ["--opt=value"]) = [⟨"--opt", EError.FLAG_PARAMETER⟩]
       ∧ destsOf (parse_args c4ap ["--opt=value"]) = [Dest.scalar (some "1"), Dest.voidDest]) := by
  constructor
  · intro st i hact hfind hmax
    constructor
    · unfold startOption
      rw [hact]
      simp only [Option.isSome_none, Bool.false_eq_true, if_false,
        show splitEq "--opt=value" = ("--opt", "value") from rfl, hfind]
      rw [startOptionFound_pure_flag st i "--opt" "value" hfind hmax,
        startOptionFound_pure_flag st i "--opt" "" hfind hmax]
      simp only [show ("value".isEmpty = false) from rfl, show ("".isEmpty = true) from rfl,
        Bool.false_eq_true, if_false, if_true]
    · unfold startOption
      rw [hact]
      simp only [Option.isSome_none, Bool.false_eq_true, if_false,
        show splitEq "--opt" = ("--opt", "") from rfl, hfind]
  · exact ⟨by decide, by decide⟩

/-- C4 witness: the general part applied to the reset `c4ap` option list. -/
theorem c4_flag_parameter_witness :
    startOption
        { options := [mkLong "--opt"], positional := [], ignoreOptions := false, position := 0
          active := none, result := { ignoredArguments := [], errors := [] } } "--opt=value" =
      Except.ok { startOptionFound
          { options := [mkLong "--opt"], positional := [], ignoreOptions := false, position := 0
            active := none, result := { ignoredArguments := [], errors := [] } } 0 "--opt" "" with
        result := addErrorTo
          (startOptionFound
            { options := [mkLong "--opt"], positional := [], ignoreOptions := false, position := 0
              active := none
              result := { ignoredArguments := [], errors := [] } } 0 "--opt" "").result
          "--opt" EError.FLAG_PARAMETER } ∧
    startOption
        { options := [mkLong "--opt"], positional := [], ignoreOptions := false, position := 0
          active := none, result := { ignoredArguments := [], errors := [] } } "--opt" =
      Except.ok (startOptionFound
        { options := [mkLong "--opt"], positional := [], ignoreOptions := false, position := 0
          active := none, result := { ignoredArguments := [], errors := [] } } 0 "--opt" "") :=
  c4_flag_parameter.1
    { options := [mkLong "--opt"], positional := [], ignoreOptions := false, position := 0
      active := none, result := { ignoredArguments := [], errors := [] } } 0 rfl (by decide)
    (by decide)

/-! ## C5: unknown options -/

/-- Registry with `--value` taking one argument. -/
def c5ap : ArgumentParser := mkAP [(mkLong "--value").setNArgs 1]

/-- C5.  Starting a token whose name (after stripping any `=value` suffix)
matches no registered option, with no active option, returns normally and
changes nothing except appending a single UNKNOWN_OPTION error: the option
lists, the positional cursor and the active option are untouched, so the
following token cannot be consumed as the unknown option's value.
Concretely, parsing `--bogus next` yields exactly one UNKNOWN_OPTION
error, routes `next` to the free-argument list, and assigns no slot. -/
theorem c5_unknown_option :
    (∀ (st : PState) (token : String), st.active = none →
      findOptionIdx st.options (splitEq token).1 = none →
      startOption st token =
        Except.ok
          { st with result := addErrorTo st.result (splitEq token).1 EError.UNKNOWN_OPTION })
    ∧ (errorsOf (parse_args c5ap ["--bogus", "next"]) = [⟨"--bogus", EError.UNKNOWN_OPTION⟩]
       ∧ ignoredOf (parse_args c5ap ["--bogus", "next"]) = ["next"]
       ∧ destsOf (parse_args c5ap ["--bogus", "next"]) = [Dest.scalar none, Dest.voidDest]) := by
  constructor
  · intro st token hact hfind
    obtain ⟨opts, posl, ign, pos, act, res⟩ := st
    dsimp only at hact hfind ⊢
    subst hact
    unfold startOption
    simp only [hfind, Option.isSome_none, Bool.false_eq_true, if_false]
  · exact ⟨by decide, by decide, by decide⟩

/-- C5 witness: the general part applied to the reset `c5ap` option list
and the token `--bogus`. -/
theorem c5_unknown_option_witness :
    startOption
        { options := [(mkLong "--value").setNArgs 1], positional := [], ignoreOptions := false
          position := 0, active := none
          result := { ignoredArguments := [], errors := [] } } "--bogus" =
      Except.ok
        { options := [(mkLong "--value").setNArgs 1], positional := [], ignoreOptions := false
          position := 0, active := none
          result := addErrorTo { ignoredArguments := [], errors := [] } (splitEq "--bogus").1
            EError.UNKNOWN_OPTION } :=
  c5_unknown_option.1
    { options := [(mkLong "--value").setNArgs 1], positional := [], ignoreOptions := false
      position := 0, active := none
      result := { ignoredArguments := [], errors := [] } } "--bogus" rfl (by decide)

/-! ## Sorted-key lemmas for the validation maps (shared by C6) -/

theorem Char.toNat_injective (a b : Char) (h : a.toNat = b.toNat) : a = b := by
  have := Char.ofNat_toNat a
  rw [h, Char.ofNat_toNat] at this
  exact this.symm

theorem charListLt_irrefl : ∀ a : List Char, charListLt a a = false := by
  intro a
  induction a with
  | nil => rfl
  | cons x xs ih => simp [charListLt, ih]

theorem charListLt_trans :
    ∀ (a b c : List Char), charListLt a b = true → charListLt b c = true →
      charListLt a c = true := by
  intro a
  induction a with
  | nil =>
    intro b c _ hbc
    cases c with
    | nil => cases b <;> simp [charListLt] at hbc
    | cons z zs => rfl
  | cons x xs ih =>
    intro b c hab hbc
    cases b with
    | nil => simp [charListLt] at hab
    | cons y ys =>
      cases c with
      | nil => simp [charListLt] at hbc
      | cons z zs =>
        unfold charListLt at hab hbc
        by_cases h1 : x.toNat < y.toNat
        · by_cases h2 : y.toNat < z.toNat
          · have h3 : x.toNat < z.toNat := lt_trans h1 h2
            simp [charListLt, h3]
          · by_cases h3 : z.toNat < y.toNat
            · rw [if_neg h2, if_pos h3] at hbc
              exact absurd hbc (by simp)
            · have h4 : x.toNat < z.toNat := by omega
              simp [charListLt, h4]
        · by_cases h1' : y.toNat < x.toNat
          · rw [if_neg h1, if_pos h1'] at hab
            exact absurd hab (by simp)
          · rw [if_neg h1, if_neg h1'] at hab
            by_cases h2 : y.toNat < z.toNat
            · have h4 : x.toNat < z.toNat := by omega
              simp [charListLt, h4]
            · by_cases h3 : z.toNat < y.toNat
              · rw [if_neg h2, if_pos h3] at hbc
                exact absurd hbc (by simp)
              · rw [if_neg h2, if_neg h3] at hbc
                have h4 : ¬x.toNat < z.toNat := by omega
                have h5 : ¬z.toNat < x.toNat := by omega
                simp [charListLt, h4, h5]
                exact ih ys zs hab hbc

theorem charListLt_total :
    ∀ (a b : List Char), charListLt a b = false → a ≠ b → charListLt b a = true := by
  intro a
  induction a with
  | nil =>
    intro b h hne
    cases b with
    | nil => exact absurd rfl hne
    | cons y ys => simp [charListLt] at h
  | cons x xs ih =>
    intro b h hne
    cases b with
    | nil => rfl
    | cons y ys =>
      unfold charListLt at h
      by_cases h1 : x.toNat < y.toNat
      · rw [if_pos h1] at h
        exact absurd h (by simp)
      · by_cases h2 : y.toNat < x.toNat
        · simp [charListLt, h2]
        · rw [if_neg h1, if_neg h2] at h
          have hxy : x = y := Char.toNat_injective x y (by omega)
          subst hxy
          have hne' : xs ≠ ys := fun he => hne (by rw [he])
          have h3 : ¬x.toNat < x.toNat := by omega
          simp [charListLt, h3]
          exact ih ys h hne'

theorem strLt_irrefl (a : String) : strLt a a = false := charListLt_irrefl a.toList

theorem strLt_trans (a b c : String) (h1 : strLt a b = true) (h2 : strLt b c = true) :
    strLt a c = true := charListLt_trans a.toList b.toList c.toList h1 h2

theorem strLt_total (a b : String) (h : strLt a b = false) (hne : a ≠ b) :
    strLt b a = true := by
  apply charListLt_total a.toList b.toList h
  intro he
  apply hne
  have : (⟨a.toList⟩ : String) = ⟨b.toList⟩ := by rw [he]
  simpa using this

theorem mem_insertSorted (x y : String) :
    ∀ l : List String, y ∈ insertSorted x l ↔ y = x ∨ y ∈ l := by
  intro l
  induction l with
  | nil => simp [insertSorted]
  | cons z zs ih =>
    unfold insertSorted
    by_cases h1 : strLt x z = true
    · simp [h1]
    · by_cases h2 : (x == z) = true
      · have hxz : x = z := eq_of_beq h2
        subst hxz
        simp [h1, h2]
      · simp [h1, h2, ih]
        tauto

theorem pairwise_insertSorted (x : String) :
    ∀ l : List String, l.Pairwise (fun a b => strLt a b = true) →
      (insertSorted x l).Pairwise (fun a b => strLt a b = true) := by
  intro l
  induction l with
  | nil => intro _; simp [insertSorted]
  | cons z zs ih =>
    intro h
    rcases List.pairwise_cons.mp h with ⟨hz, hzs⟩
    unfold insertSorted
    by_cases h1 : strLt x z = true
    · rw [if_pos h1]
      refine List.pairwise_cons.mpr ⟨?_, h⟩
      intro b hb
      rcases List.mem_cons.mp hb with rfl | hb
      · exact h1
      · exact strLt_trans x z b h1 (hz b hb)
    · by_cases h2 : (x == z) = true
      · rw [if_neg h1, if_pos h2]
        exact h
      · rw [if_neg h1, if_neg h2]
        refine List.pairwise_cons.mpr ⟨?_, ih hzs⟩
        intro b hb
        rcases (mem_insertSorted x b zs).mp hb with hb1 | hb
        · rw [hb1]
          have hne : x ≠ z := fun he => by rw [he] at h2; simp at h2
          exact strLt_total x z (by simpa using h1) hne
        · exact hz b hb

theorem pairwise_dedupSort (l : List String) :
    (dedupSort l).Pairwise (fun a b => strLt a b = true) := by
  unfold dedupSort
  induction l with
  | nil => simp
  | cons x xs ih => exact pairwise_insertSorted x _ ih

theorem nodup_dedupSort (l : List String) : (dedupSort l).Nodup := by
  apply List.Pairwise.imp ?_ (pairwise_dedupSort l)
  intro a b hab
  intro he
  subst he
  rw [strLt_irrefl] at hab
  exact Bool.noConfusion hab

theorem mem_dedupSort (y : String) : ∀ l : List String, y ∈ dedupSort l ↔ y ∈ l := by
  intro l
  induction l with
  | nil => simp [dedupSort]
  | cons x xs ih =>
    have hstep : dedupSort (x :: xs) = insertSorted x (dedupSort xs) := rfl
    rw [hstep, mem_insertSorted]
    simp [ih]

theorem filterMap_if_eq_map_filter {α β : Type} (p : α → Prop) [DecidablePred p] (g : α → β) :
    ∀ l : List α,
      (l.filterMap fun a => if p a then some (g a) else none) =
        (l.filter fun a => decide (p a)).map g := by
  intro l
  induction l with
  | nil => rfl
  | cons x xs ih => by_cases h : p x <;> simp [h, ih]

/-! ## C6: exclusive-group violations -/

/-- An exclusive group named `grp`. -/
def exclGrp : OptionGroup := { name := "grp", isRequired := false, isExclusive := true }

/-- Registry with flags `-a`, `-b` in the exclusive group. -/
def c6ap1 : ArgumentParser := mkAP [(mkFlag "-a").setGroup exclGrp, (mkFlag "-b").setGroup exclGrp]

/-- Registry with flags `-a`, `-b`, `-c` in the exclusive group. -/
def c6ap2 : ArgumentParser :=
  mkAP [(mkFlag "-a").setGroup exclGrp, (mkFlag "-b").setGroup exclGrp,
    (mkFlag "-c").setGroup exclGrp]

/-- C6.  The validation pass iterates the violation map's distinct group
names (they are `Nodup`), emitting exactly one EXCLUSIVE_OPTION error per
group with more than one assigned member, and that error names the head of
the group's assigned-member list, which lists members in declaration order
(so: the first-declared assigned member).  Every group with more than one
assigned member does get its error.  Concretely, `-a -b` in one exclusive
group yields exactly `[(-a, EXCLUSIVE_OPTION)]`, and `-c -b` against the
group `{-a, -b, -c}` yields exactly `[(-b, EXCLUSIVE_OPTION)]` — the
first-declared *assigned* member. -/
theorem c6_exclusive_violations :
    (∀ options : List Opt,
      (exclusiveAssignedGroupNames options).Nodup ∧
      exclusiveViolationErrors options =
        ((exclusiveAssignedGroupNames options).filter
            (fun g => decide (1 < (assignedExclusiveMembers options g).length))).map
          (fun g => ⟨(assignedExclusiveMembers options g).headD "", EError.EXCLUSIVE_OPTION⟩))
    ∧ (∀ (options : List Opt) (gname : String),
        1 < (assignedExclusiveMembers options gname).length →
        (⟨(assignedExclusiveMembers options gname).headD "", EError.EXCLUSIVE_OPTION⟩ : ParseError)
          ∈ exclusiveViolationErrors options)
    ∧ errorsOf (parse_args c6ap1 ["-a", "-b"]) = [⟨"-a", EError.EXCLUSIVE_OPTION⟩]
    ∧ errorsOf (parse_args c6ap2 ["-c", "-b"]) = [⟨"-b", EError.EXCLUSIVE_OPTION⟩] := by
  refine ⟨?_, ?_, by decide, by decide⟩
  · intro options
    exact ⟨nodup_dedupSort _, filterMap_if_eq_map_filter _ _ _⟩
  · intro options gname h
    unfold exclusiveViolationErrors
    apply List.mem_filterMap.mpr
    refine ⟨gname, ?_, by simp [h]⟩
    have hne : options.filter (fun o =>
        match o.group with
        | some g => g.isExclusive && g.name == gname && o.wasAssigned
        | none => false) ≠ [] := by
      intro he
      unfold assignedExclusiveMembers at h
      rw [he] at h
      simp at h
    obtain ⟨o, ho, hq⟩ :
        ∃ o ∈ options, (match o.group with
          | some g => g.isExclusive && g.name == gname && o.wasAssigned
          | none => false) = true := by
      have hh := List.head_mem hne
      rcases List.mem_filter.mp hh with ⟨h1, h2⟩
      exact ⟨_, h1, h2⟩
    unfold exclusiveAssignedGroupNames
    rw [mem_dedupSort]
    apply List.mem_filterMap.mpr
    refine ⟨o, ho, ?_⟩
    rcases hg : o.group with _ | g
    · rw [hg] at hq
      simp at hq
    · rw [hg] at hq
      simp only [Bool.and_eq_true, beq_iff_eq] at hq
      rcases hq with ⟨⟨hq1, hq2⟩, hq3⟩
      simp [hq1, hq2, hq3]

/-- C6 witness: two assigned members of one exclusive group, fed to the
membership part of the theorem. -/
def assignedFlag (short : String) : Opt :=
  { mkFlag short with
    value := { assignCount := 1, optionAssignCount := 1, hasErrors := false
               dest := Dest.scalar (some "1") } }

def c6opts : List Opt := [(assignedFlag "-a").setGroup exclGrp, (assignedFlag "-b").setGroup exclGrp]

theorem c6_exclusive_violations_witness :
    (⟨(assignedExclusiveMembers c6opts "grp").headD "", EError.EXCLUSIVE_OPTION⟩ : ParseError)
      ∈ exclusiveViolationErrors c6opts :=
  c6_exclusive_violations.2.1 c6opts "grp" (by decide)

/-! ## C7: help interception -/

theorem resetAll_helpOptionNames (ap : ArgumentParser) :
    (resetAll ap).helpOptionNames = ap.helpOptionNames := rfl

theorem resetAll_exitMode (ap : ArgumentParser) :
    (resetAll ap).exitMode = ap.exitMode := rfl

theorem addDefaultHelp_exitMode (ap : ArgumentParser) :
    (addDefaultHelp ap).exitMode = ap.exitMode := by
  unfold addDefaultHelp
  split <;> rfl

/-- Registry with `--value` taking one argument (for the help scenario). -/
def c7ap : ArgumentParser := mkAP [(mkLong "--value").setNArgs 1]

/-- C7.  If the raw token list contains a recognized help-option name (the
first such token being `harg`), and the registry passes the
declaration-time check, `parse_args` short-circuits after the per-parse
reset, before tokenizing and validation: under the `return` exit policy it
returns a ParseResult whose sole error entry is `(harg, HELP_REQUESTED)`,
with no free arguments, and the registry is in its freshly reset state.
Concretely, `--value 5 --help x` produces exactly the HELP_REQUESTED entry
and no slot receives a value (not even `--value`). -/
theorem c7_help_interception :
    (∀ (ap : ArgumentParser) (args : List String) (harg : String),
      ap.exitMode = EExitMode.EXIT_RETURN →
      firstRequiredExclusive (addDefaultHelp ap).options = none →
      args.find? (fun a => (addDefaultHelp ap).helpOptionNames.contains a) = some harg →
      parse_args ap args =
        Except.ok ({ ignoredArguments := [], errors := [⟨harg, EError.HELP_REQUESTED⟩] },
          resetAll (addDefaultHelp ap)))
    ∧ (errorsOf (parse_args c7ap ["--value", "5", "--help", "x"]) =
        [⟨"--help", EError.HELP_REQUESTED⟩]
       ∧ destsOf (parse_args c7ap ["--value", "5", "--help", "x"]) =
        [Dest.scalar none, Dest.voidDest]
       ∧ ignoredOf (parse_args c7ap ["--value", "5", "--help", "x"]) = []) := by
  constructor
  · intro ap args harg hmode hver hfind
    unfold parse_args parseArgsCore parseArgsReset
    simp only [hver, resetAll_helpOptionNames, hfind]
    unfold exitParser
    rw [resetAll_exitMode, addDefaultHelp_exitMode, hmode]
  · exact ⟨by decide, by decide, by decide⟩

/-- C7 witness: the general part applied to `c7ap` and `["--help"]`. -/
theorem c7_help_interception_witness :
    parse_args c7ap ["--help"] =
      Except.ok ({ ignoredArguments := [], errors := [⟨"--help", EError.HELP_REQUESTED⟩] },
        resetAll (addDefaultHelp c7ap)) :=
  c7_help_interception.1 c7ap ["--help"] "--help" rfl (by decide) (by decide)

/-! ## C9: positional-argument defaults -/

/-- The positional argument appended by a successful `tryAddArgument`. -/
def addedPositional (e : Except String ArgumentParser) : Opt :=
  match e with
  | Except.ok ap => ap.positional.getLastD defaultOpt
  | Except.error _ => defaultOpt

/-- C9.  Adding a positional argument (all names dash-free, non-empty, no
whitespace) succeeds and appends one entry to the positional list; its
arity defaults to exactly one required argument (`min = max = 1`) unless
the destination is a vector slot, in which case it defaults to zero-or-more
(`min = 0`, `max = -1` i.e. unbounded); its name is the first given name;
and when an exclusive group is active at declaration time the group
membership is silently ignored (the new positional has no group, and no
error is raised), while a non-exclusive active group is attached. -/
theorem c9_positional_defaults (ap : ArgumentParser) (o : Opt) (names : List String)
    (hne : names ≠ []) (hnemp : ∀ n ∈ names, n.isEmpty = false)
    (hws : names.any (fun n => n.toList.any isSpaceChar) = false)
    (hnd : names.all (fun n => !(n.toList.take 1 == ['-'])) = true)
    (hgrp : o.group = none) :
    tryAddArgument ap o names =
      Except.ok { ap with
        positional := ap.positional ++ [addedPositional (tryAddArgument ap o names)] } ∧
    (addedPositional (tryAddArgument ap o names)).minArgs =
      (if o.isVectorValue then 0 else 1) ∧
    (addedPositional (tryAddArgument ap o names)).maxArgs =
      (if o.isVectorValue then -1 else 1) ∧
    (addedPositional (tryAddArgument ap o names)).longName = names.headD "arg" ∧
    (∀ g, ap.activeGroup = some g → g.isExclusive = true →
      (addedPositional (tryAddArgument ap o names)).group = none) ∧
    (∀ g, ap.activeGroup = some g → g.isExclusive = false →
      (addedPositional (tryAddArgument ap o names)).group = some g) := by
  have hfilter : names.filter (fun n => !n.isEmpty) = names := by
    apply List.filter_eq_self.mpr
    intro n hn
    rw [hnemp n hn]
    rfl
  have hie : names.isEmpty = false := by
    cases names with
    | nil => exact absurd rfl hne
    | cons a as => rfl
  have hred : tryAddArgument ap o names =
      Except.ok { ap with positional := ap.positional ++
        [(match ap.activeGroup with
          | some g =>
            if !g.isExclusive then
              (if (o.setLongName (names.headD "arg")).hasVectorValue then
                (o.setLongName (names.headD "arg")).setMinArgs 0
               else (o.setLongName (names.headD "arg")).setNArgs 1).setGroup g
            else
              (if (o.setLongName (names.headD "arg")).hasVectorValue then
                (o.setLongName (names.headD "arg")).setMinArgs 0
               else (o.setLongName (names.headD "arg")).setNArgs 1)
          | none =>
            (if (o.setLongName (names.headD "arg")).hasVectorValue then
              (o.setLongName (names.headD "arg")).setMinArgs 0
             else (o.setLongName (names.headD "arg")).setNArgs 1))] } := by
    unfold tryAddArgument
    rw [hfilter]
    simp only [hie, Bool.false_eq_true, if_false, hws, hnd, if_true]
  rw [hred]
  unfold addedPositional
  simp only [List.getLastD_concat]
  rcases hag : ap.activeGroup with _ | g
  · by_cases hvec : o.isVectorValue = true
    · refine ⟨by trivial, ?_, ?_, ?_, ?_, ?_⟩ <;>
        simp [Opt.setMinArgs, Opt.setNArgs, Opt.setLongName, Opt.hasVectorValue, hvec, hag]
    · have hvec' : o.isVectorValue = false := by
        cases h : o.isVectorValue
        · rfl
        · exact absurd h hvec
      refine ⟨by trivial, ?_, ?_, ?_, ?_, ?_⟩ <;>
        simp [Opt.setMinArgs, Opt.setNArgs, Opt.setLongName, Opt.hasVectorValue, hvec', hag]
  · by_cases hex : g.isExclusive = true
    · by_cases hvec : o.isVectorValue = true
      · refine ⟨by trivial, ?_, ?_, ?_, ?_, ?_⟩ <;>
          simp [Opt.setMinArgs, Opt.setNArgs, Opt.setLongName, Opt.hasVectorValue,
            Opt.setGroup, hvec, hex, hag, hgrp]
      · have hvec' : o.isVectorValue = false := by
          cases h : o.isVectorValue
          · rfl
          · exact absurd h hvec
        refine ⟨by trivial, ?_, ?_, ?_, ?_, ?_⟩ <;>
          simp [Opt.setMinArgs, Opt.setNArgs, Opt.setLongName, Opt.hasVectorValue,
            Opt.setGroup, hvec', hex, hag, hgrp]
    · have hex' : g.isExclusive = false := by
        cases h : g.isExclusive
        · rfl
        · exact absurd h hex
      by_cases hvec : o.isVectorValue = true
      · refine ⟨by trivial, ?_, ?_, ?_, ?_, ?_⟩ <;>
          simp [Opt.setMinArgs, Opt.setNArgs, Opt.setLongName, Opt.hasVectorValue,
            Opt.setGroup, hvec, hex', hag]
      · have hvec' : o.isVectorValue = false := by
          cases h : o.isVectorValue
          · rfl
          · exact absurd h hvec
        refine ⟨by trivial, ?_, ?_, ?_, ?_, ?_⟩ <;>
          simp [Opt.setMinArgs, Opt.setNArgs, Opt.setLongName, Opt.hasVectorValue,
            Opt.setGroup, hvec', hex', hag]

/-- C9 witness: a vector-destination positional named `files`, declared
while an exclusive group is active. -/
def c9grp : OptionGroup := { name := "c9", isRequired := false, isExclusive := true }

def c9ap : ArgumentParser :=
  { options := [], positional := [], helpOptionNames := [], activeGroup := some c9grp
    exitMode := EExitMode.EXIT_RETURN }

def c9vecOpt : Opt :=
  { defaultOpt with
    conv := strConv
    isVectorValue := true
    value := { assignCount := 0, optionAssignCount := 0, hasErrors := false
               dest := Dest.vector [] } }

theorem c9_positional_defaults_witness :
    tryAddArgument c9ap c9vecOpt ["files"] =
      Except.ok { c9ap with
        positional := c9ap.positional ++
          [addedPositional (tryAddArgument c9ap c9vecOpt ["files"])] } ∧
    (addedPositional (tryAddArgument c9ap c9vecOpt ["files"])).minArgs = 0 ∧
    (addedPositional (tryAddArgument c9ap c9vecOpt ["files"])).maxArgs = -1 ∧
    (addedPositional (tryAddArgument c9ap c9vecOpt ["files"])).group = none := by
  have h := c9_positional_defaults c9ap c9vecOpt ["files"] (by decide) (by decide) (by decide)
    (by decide) rfl
  exact ⟨h.1, h.2.1, h.2.2.1, h.2.2.2.2.1 c9grp rfl rfl⟩

/-! ## C10: an option still active at `--` -/

/-- Registry with `--value` requiring exactly one argument. -/
def c10ap1 : ArgumentParser := mkAP [(mkLong "--value").setNArgs 1]

/-- Registry with `--value` taking at most one (optional) argument. -/
def c10ap2 : ArgumentParser := mkAP [(mkLong "--value").setMaxArgs 1]

/-- C10.  A bare `--` only sets ignore-options mode — it does not close the
active option (the whole state apart from the mode flag, including
`active`, is untouched).  In ignore-options mode every further token is
routed through `addFreeArgument` without consulting the active option (the
named options and `active` are unchanged), so no subsequent token is ever
assigned to it.  The active option is finalized only by `closeOption` at
end of input: MISSING_ARGUMENT if it still needs more arguments; otherwise,
if nothing was assigned through it and it can still accept one, the
flag-default value is assigned through `Option::setValue` directly — when
that conversion succeeds the slot is updated, and when it throws
(invalid choice or conversion failure on the flag value) the exception
escapes the parse uncaught.  Concretely, with `--value` requiring one
argument, `--value -- free` yields a MISSING_ARGUMENT error, an empty slot
and `free` as a free argument; with `--value` taking an optional argument
the same input yields no error and the slot holds the flag default
`"1"`. -/
theorem c10_dashdash_active_option :
    (∀ s : PState, parseToken s "--" = Except.ok { s with ignoreOptions := true })
    ∧ (∀ (s : PState) (arg : String), s.ignoreOptions = true → arg ≠ "--" →
        parseToken s arg = Except.ok (addFreeArgument s arg) ∧
        (addFreeArgument s arg).options = s.options ∧
        (addFreeArgument s arg).active = s.active)
    ∧ (∀ (s : PState) (i : Nat), s.active = some i →
        ((s.options.getD i defaultOpt).needsMoreArguments = true →
          closeOption s =
            Except.ok
              { s with active := none
                       result := addErrorTo s.result (s.options.getD i defaultOpt).getName
                         EError.MISSING_ARGUMENT })
        ∧ ((s.options.getD i defaultOpt).needsMoreArguments = false →
           (s.options.getD i defaultOpt).willAcceptArgument = true →
           (s.options.getD i defaultOpt).wasAssignedThroughThisOption = false →
           ((Opt.setValue (s.options.getD i defaultOpt)
               (s.options.getD i defaultOpt).flagValue).2 = SetResult.ok →
             closeOption s =
               Except.ok
                 { s with
                   options := s.options.set i
                     (Opt.setValue (s.options.getD i defaultOpt)
                       (s.options.getD i defaultOpt).flagValue).1
                   active := none }) ∧
           ((Opt.setValue (s.options.getD i defaultOpt)
               (s.options.getD i defaultOpt).flagValue).2 = SetResult.invalidChoice →
             closeOption s =
               Except.error
                 (UncaughtExc.invalidChoice (s.options.getD i defaultOpt).flagValue)) ∧
           ((Opt.setValue (s.options.getD i defaultOpt)
               (s.options.getD i defaultOpt).flagValue).2 = SetResult.convError →
             closeOption s = Except.error UncaughtExc.conversionError)))
    ∧ (errorsOf (parse_args c10ap1 ["--value", "--", "free"]) =
         [⟨"--value", EError.MISSING_ARGUMENT⟩]
       ∧ ignoredOf (parse_args c10ap1 ["--value", "--", "free"]) = ["free"]
       ∧ destsOf (parse_args c10ap1 ["--value", "--", "free"]) = [Dest.scalar none, Dest.voidDest])
    ∧ (errorsOf (parse_args c10ap2 ["--value", "--", "free"]) = []
       ∧ ignoredOf (parse_args c10ap2 ["--value", "--", "free"]) = ["free"]
       ∧ destsOf (parse_args c10ap2 ["--value", "--", "free"]) =
         [Dest.scalar (some "1"), Dest.voidDest]) := by
  refine ⟨?_, ?_, ?_, ⟨by decide, by decide, by decide⟩, ⟨by decide, by decide, by decide⟩⟩
  · intro s
    rfl
  · intro s arg hig hdd
    exact ⟨parseToken_ignoreMode s arg hig hdd, addFreeArgument_options s arg,
      addFreeArgument_active s arg⟩
  · intro s i hact
    obtain ⟨opts, posl, ign, pos, act, res⟩ := s
    dsimp only at hact ⊢
    subst hact
    constructor
    · intro hneed
      unfold closeOption
      dsimp only
      rw [if_pos hneed]
    · intro hneed hwa hassign
      unfold closeOption
      dsimp only
      have c1 : ¬((opts.getD i defaultOpt).needsMoreArguments = true) := by
        rw [hneed]
        exact Bool.false_ne_true
      rw [if_neg c1]
      have c2 : ((opts.getD i defaultOpt).willAcceptArgument &&
          !(opts.getD i defaultOpt).wasAssignedThroughThisOption) = true := by
        rw [hwa, hassign]
        rfl
      rw [if_pos c2]
      rcases hsv : Opt.setValue (opts.getD i defaultOpt) ((opts.getD i defaultOpt).flagValue)
        with ⟨o2, r⟩
      refine ⟨?_, ?_, ?_⟩
      · intro hok
        dsimp only at hok
        subst hok
        rfl
      · intro hic
        dsimp only at hic
        subst hic
        rfl
      · intro hcv
        dsimp only at hcv
        subst hcv
        rfl

/-- C10 witness: closing a still-unsatisfied active `--value` raises
MISSING_ARGUMENT. -/
theorem c10_dashdash_active_option_witness :
    closeOption
        { options := [(mkLong "--value").setNArgs 1], positional := [], ignoreOptions := true
          position := 0, active := some 0
          result := { ignoredArguments := [], errors := [] } } =
      Except.ok
        { options := [(mkLong "--value").setNArgs 1], positional := [], ignoreOptions := true
          position := 0, active := none
          result := addErrorTo { ignoredArguments := [], errors := [] }
            (([(mkLong "--value").setNArgs 1].getD 0 defaultOpt).getName)
            EError.MISSING_ARGUMENT } :=
  (c10_dashdash_active_option.2.2.1
    { options := [(mkLong "--value").setNArgs 1], positional := [], ignoreOptions := true
      position := 0, active := some 0
      result := { ignoredArguments := [], errors := [] } } 0 rfl).1 (by decide)

/-! ## C8: the parse mutates only value slots (reset-projection lemmas) -/

theorem destResetIdem (d : Dest) : d.reset.reset = d.reset := by
  cases d <;> rfl

theorem valueResetIdem (v : Value) : v.reset.reset = v.reset := by
  unfold Value.reset
  rw [destResetIdem]

theorem Value.reset_setValue (conv : String → Option String) (v : Value) (s : String) :
    ((Value.setValue conv v s).1).reset = v.reset := by
  unfold Value.setValue Value.doSetValue
  cases hv : v.dest with
  | voidDest => simp [hv, Value.reset]
  | scalar val => cases hc : conv s <;> simp [hv, hc, Value.reset, Dest.reset]
  | vector xs => cases hc : conv s <;> simp [hv, hc, Value.reset, Dest.reset]

theorem Value.reset_markBadArgument (v : Value) : v.markBadArgument.reset = v.reset := rfl

theorem OptSetValue_resetValue (o : Opt) (a : String) :
    (Opt.setValue o a).1.resetValue = o.resetValue := by
  unfold Opt.setValue
  split
  · simp [Opt.resetValue, Value.reset_markBadArgument]
  · rcases h : Value.setValue o.conv o.value a with ⟨v, b⟩
    have hr : v.reset = o.value.reset := by
      have h2 := Value.reset_setValue o.conv o.value a
      rw [h] at h2
      exact h2
    cases b <;> simp [h, Opt.resetValue, hr]

theorem setValueCaught_resetValue (o : Opt) (a : String) :
    (setValueCaught o a).1.resetValue = o.resetValue := by
  rw [setValueCaught_fst]
  exact OptSetValue_resetValue o a

theorem Opt.resetValue_onOptionStarted (o : Opt) :
    o.onOptionStarted.resetValue = o.resetValue := rfl

theorem Opt.resetValue_idem (o : Opt) : o.resetValue.resetValue = o.resetValue := by
  unfold Opt.resetValue
  simp [valueResetIdem]

theorem map_resetValue_set (x : Opt) :
    ∀ (l : List Opt) (i : Nat), x.resetValue = (l.getD i defaultOpt).resetValue →
      (l.set i x).map Opt.resetValue = l.map Opt.resetValue := by
  intro l
  induction l with
  | nil => intro i _; rfl
  | cons y ys ih =>
    intro i h
    cases i with
    | zero => simpa using h
    | succ j =>
      simp only [List.set, List.map_cons]
      exact congrArg (List.cons y.resetValue) (ih j h)

theorem map_resetValue_idem (l : List Opt) :
    (l.map Opt.resetValue).map Opt.resetValue = l.map Opt.resetValue := by
  induction l with
  | nil => rfl
  | cons x xs ih =>
    simp only [List.map_cons]
    exact congrArg₂ List.cons (Opt.resetValue_idem x) ih

def stripS (s : PState) : List Opt × List Opt :=
  (s.options.map Opt.resetValue, s.positional.map Opt.resetValue)

theorem stripS_setOptionAt (s : PState) (i : Nat) (a : String) :
    stripS (setOptionAt s i a) = stripS s := by
  unfold stripS setOptionAt
  exact congrArg₂ Prod.mk (map_resetValue_set _ _ _ (setValueCaught_resetValue _ _)) rfl

theorem stripS_setPositionalAt (s : PState) (i : Nat) (a : String) :
    stripS (setPositionalAt s i a) = stripS s := by
  unfold stripS setPositionalAt
  exact congrArg₂ Prod.mk rfl (map_resetValue_set _ _ _ (setValueCaught_resetValue _ _))

theorem stripS_closeOption (s s2 : PState) (h : closeOption s = Except.ok s2) :
    stripS s2 = stripS s := by
  unfold closeOption at h
  split at h
  · rw [Except.ok.injEq] at h
    subst h
    rfl
  · rename_i i hacti
    dsimp only at h
    split at h
    · rw [Except.ok.injEq] at h
      subst h
      rfl
    · split at h
      · split at h
        · rename_i o2 heq
          rw [Except.ok.injEq] at h
          subst h
          have hr : o2.resetValue = (s.options.getD i defaultOpt).resetValue := by
            have h3 := OptSetValue_resetValue (s.options.getD i defaultOpt)
              ((s.options.getD i defaultOpt).flagValue)
            rw [heq] at h3
            exact h3
          exact congrArg₂ Prod.mk (map_resetValue_set _ _ _ hr) rfl
        · exact absurd h (by simp)
        · exact absurd h (by simp)
      · rw [Except.ok.injEq] at h
        subst h
        rfl

theorem stripS_startOptionFound (s : PState) (i : Nat) (name arg : String) :
    stripS (startOptionFound s i name arg) = stripS s := by
  unfold startOptionFound
  have h2 : stripS { s with
      options := s.options.set i ((s.options.getD i defaultOpt).onOptionStarted) } = stripS s := by
    unfold stripS
    exact congrArg₂ Prod.mk (map_resetValue_set _ _ _ (Opt.resetValue_onOptionStarted _)) rfl
  refine Eq.trans ?_ h2
  dsimp only
  repeat' split
  all_goals first
    | rfl
    | exact stripS_setOptionAt _ _ _
    | exact (stripS_setOptionAt _ _ _).trans (stripS_setOptionAt _ _ _)

theorem stripS_startOption (s s2 : PState) (token : String)
    (h : startOption s token = Except.ok s2) : stripS s2 = stripS s := by
  unfold startOption at h
  split at h
  · exact absurd h (by simp)
  · rename_i s1 heq
    have h1 : stripS s1 = stripS s := by
      split at heq
      · exact stripS_closeOption _ _ heq
      · rw [Except.ok.injEq] at heq
        subst heq
        rfl
    dsimp only at h
    split at h
    · rw [Except.ok.injEq] at h
      subst h
      exact (stripS_startOptionFound _ _ _ _).trans h1
    · rw [Except.ok.injEq] at h
      subst h
      exact h1

theorem stripS_addFreeArgument (s : PState) (arg : String) :
    stripS (addFreeArgument s arg) = stripS s := by
  unfold addFreeArgument
  split
  · exact stripS_setPositionalAt _ _ _
  · rfl

theorem stripS_startOptionCluster :
    ∀ (cs : List Char) (s s2 : PState), startOptionCluster s cs = Except.ok s2 →
      stripS s2 = stripS s := by
  intro cs
  induction cs with
  | nil =>
    intro s s2 h
    unfold startOptionCluster at h
    rw [Except.ok.injEq] at h
    subst h
    rfl
  | cons c cs ih =>
    intro s s2 h
    unfold startOptionCluster at h
    split at h
    · exact absurd h (by simp)
    · rename_i s1 heq
      exact (ih s1 s2 h).trans (stripS_startOption _ _ _ heq)

theorem stripS_parseToken (s s2 : PState) (arg : String) (h : parseToken s arg = Except.ok s2) :
    stripS s2 = stripS s := by
  unfold parseToken at h
  split at h
  · rw [Except.ok.injEq] at h
    subst h
    rfl
  · split at h
    · rw [Except.ok.injEq] at h
      subst h
      exact stripS_addFreeArgument _ _
    · split at h
      · exact stripS_startOption _ _ _ h
      · split at h
        · split at h
          · exact stripS_startOption _ _ _ h
          · exact stripS_startOptionCluster _ _ _ h
        · split at h
          · dsimp only at h
            split at h
            · split at h
              · exact (stripS_closeOption _ _ h).trans (stripS_setOptionAt _ _ _)
              · rw [Except.ok.injEq] at h
                subst h
                exact stripS_setOptionAt _ _ _
            · rw [Except.ok.injEq] at h
              subst h
              rfl
          · rw [Except.ok.injEq] at h
            subst h
            exact stripS_addFreeArgument _ _

theorem stripS_parseTokensLoop :
    ∀ (l : List String) (s s2 : PState), parseTokensLoop s l = Except.ok s2 →
      stripS s2 = stripS s := by
  intro l
  induction l with
  | nil =>
    intro s s2 h
    unfold parseTokensLoop at h
    rw [Except.ok.injEq] at h
    subst h
    rfl
  | cons a as ih =>
    intro s s2 h
    unfold parseTokensLoop at h
    split at h
    · exact absurd h (by simp)
    · rename_i s1 heq
      exact (ih s1 s2 h).trans (stripS_parseToken _ _ _ heq)

theorem stripS_parseTokens (args : List String) (s s2 : PState)
    (h : parseTokens s args = Except.ok s2) : stripS s2 = stripS s := by
  unfold parseTokens at h
  dsimp only at h
  split at h
  · exact absurd h (by simp)
  · rename_i s1 heq
    have h1 : stripS s1 = stripS s := (stripS_parseTokensLoop args _ _ heq).trans rfl
    split at h
    · exact (stripS_closeOption _ _ h).trans h1
    · rw [Except.ok.injEq] at h
      subst h
      exact h1

theorem firstRequiredExclusive_map_reset (l : List Opt) :
    firstRequiredExclusive (l.map Opt.resetValue) = firstRequiredExclusive l := by
  unfold firstRequiredExclusive
  induction l with
  | nil => rfl
  | cons o os ih =>
    simp only [List.map_cons, List.findSome?_cons]
    have hdef : (if o.resetValue.isRequired = true then
        (match o.resetValue.group with
         | some g => if g.isExclusive = true then some (o.resetValue.getName, g.name) else none
         | none => none)
      else none) = (if o.isRequired = true then
        (match o.group with
         | some g => if g.isExclusive = true then some (o.getName, g.name) else none
         | none => none)
      else none) := rfl
    rw [hdef, ih]

theorem ArgumentParser.fieldsEq (a b : ArgumentParser) (h1 : a.options = b.options)
    (h2 : a.positional = b.positional) (h3 : a.helpOptionNames = b.helpOptionNames)
    (h4 : a.activeGroup = b.activeGroup) (h5 : a.exitMode = b.exitMode) : a = b := by
  cases a
  cases b
  simp_all

theorem exitParser_ok (ap : ArgumentParser) (arg : String) (code : EError)
    (r : ParseResult) (ap2 : ArgumentParser)
    (h : exitParser ap arg code = Except.ok (r, ap2)) : ap2 = ap := by
  unfold exitParser at h
  cases hm : ap.exitMode <;> rw [hm] at h
  · exact absurd h (by simp)
  · exact absurd h (by simp)
  · rw [Except.ok.injEq, Prod.mk.injEq] at h
    exact h.2.symm

theorem addDefaultHelp_helpNonempty (ap : ArgumentParser) :
    (addDefaultHelp ap).helpOptionNames.isEmpty = false := by
  unfold addDefaultHelp
  split
  · rfl
  · next h => simpa using h


/-- C8.  Calling `parse_args(A)` and then `parse_args(B)` on one registry
yields exactly the same result — the same ParseResult and the same final
registry state, destination values included — as calling `parse_args(B)`
alone: every value slot is fully reset at the start of each parse call, a
parse mutates nothing but value slots, and the implicit help-option
installation is idempotent, so no values or errors leak from the first
call into the second. -/
theorem c8_reparse_idempotent (ap : ArgumentParser) (A B : List String)
    (r1 : ParseResult) (ap1 : ArgumentParser)
    (h : parse_args ap A = Except.ok (r1, ap1)) :
    parse_args ap1 B = parse_args ap B := by
  unfold parse_args at h ⊢
  have hfields : ap1.helpOptionNames = (addDefaultHelp ap).helpOptionNames ∧
      ap1.activeGroup = (addDefaultHelp ap).activeGroup ∧
      ap1.exitMode = (addDefaultHelp ap).exitMode ∧
      ap1.options.map Opt.resetValue = (addDefaultHelp ap).options.map Opt.resetValue ∧
      ap1.positional.map Opt.resetValue = (addDefaultHelp ap).positional.map Opt.resetValue ∧
      firstRequiredExclusive (addDefaultHelp ap).options = none := by
    unfold parseArgsCore at h
    rcases hfre : firstRequiredExclusive (addDefaultHelp ap).options with _ | p
    · rw [hfre] at h
      dsimp only at h
      unfold parseArgsReset at h
      rcases hfind : A.find?
          (fun a => (resetAll (addDefaultHelp ap)).helpOptionNames.contains a) with _ | harg
      · rw [hfind] at h
        dsimp only at h
        split at h
        · exact absurd h (by simp)
        · rename_i st hst
          rw [Except.ok.injEq, Prod.mk.injEq] at h
          obtain ⟨h1, h2⟩ := h
          subst h2
          have hs := stripS_parseTokens A (initPState (resetAll (addDefaultHelp ap))) st hst
          refine ⟨rfl, rfl, rfl, ?_, ?_, rfl⟩
          · exact (congrArg Prod.fst hs).trans (map_resetValue_idem _)
          · exact (congrArg Prod.snd hs).trans (map_resetValue_idem _)
      · rw [hfind] at h
        have hap := exitParser_ok _ _ _ _ _ h
        subst hap
        refine ⟨rfl, rfl, rfl, ?_, ?_, rfl⟩
        · exact map_resetValue_idem _
        · exact map_resetValue_idem _
    · rw [hfre] at h
      exact absurd h (by simp)
  obtain ⟨hh, hg, he, ho, hp, hfre⟩ := hfields
  have hadd1 : addDefaultHelp ap1 = ap1 := by
    unfold addDefaultHelp
    rw [hh]
    simp [addDefaultHelp_helpNonempty]
  rw [hadd1]
  unfold parseArgsCore
  have hfre1 : firstRequiredExclusive ap1.options = none := by
    rw [← firstRequiredExclusive_map_reset, ho, firstRequiredExclusive_map_reset]
    exact hfre
  have hreset : resetAll ap1 = resetAll (addDefaultHelp ap) :=
    ArgumentParser.fieldsEq _ _ ho hp hh hg he
  rw [hfre1, hfre, hreset]


def c8ap : ArgumentParser :=
  { options := [mkFlag "-a"], positional := [], helpOptionNames := ["--help"]
    activeGroup := none, exitMode := EExitMode.EXIT_RETURN }

def c8res : ParseResult × ArgumentParser :=
  match parse_args c8ap ["-a"] with
  | Except.ok p => p
  | Except.error _ => ({ ignoredArguments := [], errors := [] }, c8ap)

theorem c8_reparse_idempotent_witness :
    parse_args c8ap ["-a"] = Except.ok (c8res.1, c8res.2) ∧
    parse_args c8res.2 ["-b"] = parse_args c8ap ["-b"] := by
  constructor
  · rfl
  · exact c8_reparse_idempotent c8ap ["-a"] ["-b"] c8res.1 c8res.2 (by rfl)

end argparse
